import Mathlib

/-!
# Verification of the food-search data-access module

Shallow embedding of the search/cache/retry pipeline of the nutrition
client: `searchProductsByName` (retry loop with exponential backoff and
jitter), `cacheSearchResults` (best-effort idempotent cache writer),
`generateTempId` (identifier synthesizer) and `addFoodToMeal`.

External effects are modelled by explicit oracles: the search endpoint is
a function from attempt number to its response, `Math.random()` jitter is
a function from attempt number to a rational in `[0, 200)`, `Date.now()`
is a function from record index to a timestamp, and cache-layer failures
are a boolean oracle per attempt and record index.  The cache table
`livsmedelskache` is a list of rows threaded through the functions.
-/

/-- JS truthiness for an optional string: `undefined`/`null` and `""` are
falsy, every other string is truthy. -/
def jsTruthy : Option String → Option String
  | none => none
  | some s => if s = "" then none else some s

/-- JS `a || dflt` where `a` is an optional string and `dflt` a string. -/
def jsStrOr (o : Option String) (dflt : String) : String :=
  match jsTruthy o with
  | some s => s
  | none => dflt

/-- JS `a || 0` for an optional integer: `undefined` and `0` both give `0`,
every other value passes through, so this is `Option.getD 0`. -/
def jsNumOr (o : Option Int) : Int := o.getD 0

/-- Does the character list begin with the given pattern? -/
def charsStartsWith : List Char → List Char → Bool
  | _, [] => true
  | [], _ :: _ => false
  | c :: cs, p :: ps => c == p && charsStartsWith cs ps

/-- Does the character list contain the pattern as a contiguous run? -/
def charsContains : List Char → List Char → Bool
  | [], pat => pat.isEmpty
  | c :: cs, pat => charsStartsWith (c :: cs) pat || charsContains cs pat

/-- JS `s.includes(pat)`. -/
def strIncludes (s pat : String) : Bool :=
  charsContains s.toList pat.toList

/-- The `FoodProduct` interface of the source (numeric fields as integers,
optional fields as `Option`). -/
structure FoodProduct where
  name : String
  brand : String
  calories : Int
  protein : Int
  fat : Int
  carbs : Int
  sugar : Option Int
  image_url : String
  off_id : Option String
deriving DecidableEq

/-- A raw search-endpoint result object, before normalization: every field
other than `name` may be absent. -/
structure RawItem where
  name : String
  brand : Option String
  calories : Option Int
  protein : Option Int
  fat : Option Int
  carbs : Option Int
  sugar : Option Int
  image_url : Option String
  off_id : Option String
  barcode : Option String
deriving DecidableEq

/-- A row of the `livsmedelskache` cache table, as inserted by the source. -/
structure CacheRow where
  off_id : String
  produktnamn : String
  varumarke : Option String
  energi_kcal_100g : Int
  protein_100g : Int
  kolhydrater_100g : Int
  fett_100g : Int
  bild_url : Option String
deriving DecidableEq

/-- The error object returned by the endpoint invocation: a status code
(absent for pure transport failures) and a message. -/
structure ErrObj where
  status : Option Int
  message : String
deriving DecidableEq

/-- One endpoint invocation's outcome: an error object, or a payload that
is either a well-formed array of raw items or (`none`) null/non-array. -/
inductive InvokeResult where
  | err : ErrObj → InvokeResult
  | okData : Option (List RawItem) → InvokeResult
deriving DecidableEq

/-- The two error classes that may cross the `searchProductsByName`
boundary. `networkUnavailable` is the user-facing "cannot reach server"
error; `searchFailed` carries the underlying message. -/
inductive SearchError where
  | networkUnavailable : SearchError
  | searchFailed : String → SearchError
deriving DecidableEq

/-- `generateTempId` from the source: concatenate name, `brand || ''` and
the current timestamp, then render `temp_` followed by the sum of the
character codes of that string.  `Date.now()` is passed explicitly as
`now`.  A total function: it never throws. -/
def generateTempId (name : String) (brand : Option String) (now : Nat) : String :=
  let combinedString := name ++ jsStrOr brand "" ++ toString now
  "temp_" ++ toString (combinedString.toList.foldl (fun acc char => acc + char.toNat) 0)

/-- Specification-side checksum: the sum of the character codes of a
string. -/
def charSum (s : String) : Nat :=
  (s.toList.map Char.toNat).sum

/-- The identifier under which `cacheSearchResults` would cache a raw
item: `product.off_id || product.barcode`, `none` when both are falsy
(the guard `!product.off_id && !product.barcode`). -/
def resolveCacheId (p : RawItem) : Option String :=
  match jsTruthy p.off_id with
  | some s => some s
  | none => jsTruthy p.barcode

/-- The row inserted into `livsmedelskache` for a raw item. -/
def mkCacheRow (off_id : String) (p : RawItem) : CacheRow :=
  { off_id := off_id
    produktnamn := p.name
    varumarke := jsTruthy p.brand
    energi_kcal_100g := jsNumOr p.calories
    protein_100g := jsNumOr p.protein
    kolhydrater_100g := jsNumOr p.carbs
    fett_100g := jsNumOr p.fat
    bild_url := jsTruthy p.image_url }

/-- `cacheSearchResults` from the source.  `fails i` models a thrown
store error while processing record `i` (lookup or insert): the row is
not inserted and, since the `try` wraps the whole loop, the remaining
records are abandoned; the error is swallowed either way.  Records whose
`off_id` and `barcode` are both falsy are skipped.  A lookup that finds
an existing row with the identifier skips the record (no update). -/
def cacheSearchResults (fails : Nat → Bool) : List RawItem → Nat → List CacheRow → List CacheRow
  | [], _, st => st
  | p :: ps, i, st =>
    match resolveCacheId p with
    | none => cacheSearchResults fails ps (i + 1) st
    | some id =>
      if fails i then st
      else if st.any (fun row => row.off_id = id) then
        cacheSearchResults fails ps (i + 1) st
      else
        cacheSearchResults fails ps (i + 1) (st ++ [mkCacheRow id p])

/-- Normalization of one raw item (the body of the `data.map` in
`searchProductsByName`); `ts` is the `Date.now()` value observed if a
temporary identifier has to be synthesized for this item. -/
def normalizeItem (ts : Nat) (item : RawItem) : FoodProduct :=
  { name := item.name
    brand := jsStrOr item.brand ""
    calories := jsNumOr item.calories
    protein := jsNumOr item.protein
    fat := jsNumOr item.fat
    carbs := jsNumOr item.carbs
    sugar := item.sugar
    image_url := jsStrOr item.image_url ""
    off_id := some (jsStrOr item.off_id
      (jsStrOr item.barcode (generateTempId item.name item.brand ts))) }

/-- Normalize a list of raw items; record `i` sees timestamp `tsOf i`. -/
def normalizeListAux (tsOf : Nat → Nat) : List RawItem → Nat → List FoodProduct
  | [], _ => []
  | item :: rest, i => normalizeItem (tsOf i) item :: normalizeListAux tsOf rest (i + 1)

/-- Normalize a list of raw items starting at index `0`. -/
def normalizeList (tsOf : Nat → Nat) (data : List RawItem) : List FoodProduct :=
  normalizeListAux tsOf data 0

/-- The outcome of the `try` block of one attempt, before the `catch`
logic: success with the array payload, an immediate empty return on an
explicit 404 status, or a thrown error message. -/
inductive StepOutcome where
  | success : List RawItem → StepOutcome
  | notFound : StepOutcome
  | failure : String → StepOutcome
deriving DecidableEq

/-- The `try` block of one attempt of `searchProductsByName`: a 404
status returns `[]` immediately; any other endpoint error is thrown
wrapped as `Sökningen misslyckades: ...`; a null/non-array payload throws
`Ogiltig respons från servern`; otherwise the payload is the result. -/
def stepOf : InvokeResult → StepOutcome
  | .err e =>
    if e.status = some 404 then .notFound
    else .failure ("Sökningen misslyckades: " ++ e.message)
  | .okData none => .failure "Ogiltig respons från servern"
  | .okData (some data) => .success data

/-- The generic fallback message of the `searchFailed` error. -/
def searchFallbackMessage : String :=
  "Ett fel uppstod vid sökning. Försök igen om en stund."

/-- The final-attempt `catch` classification of `searchProductsByName`:
a message mentioning `404` returns `[]`; a network-class message raises
the "cannot reach server" error; anything else raises the generic search
failure carrying the message (or the fallback when empty). -/
def classifyFinal (msg : String) : Except SearchError (List FoodProduct) :=
  if strIncludes msg "404" then .ok []
  else if strIncludes msg "Network" || strIncludes msg "Failed to fetch"
      || strIncludes msg "HTTP error" then
    .error .networkUnavailable
  else
    .error (.searchFailed (if msg = "" then searchFallbackMessage else msg))

/-- The oracles standing for the external world during one
`searchProductsByName` call. -/
structure Env where
  responses : Nat → InvokeResult
  jitter : Nat → ℚ
  tsOf : Nat → Nat
  cacheFails : Nat → Nat → Bool

/-- Observable outcome of one `searchProductsByName` call: the returned
value or raised error, the number of endpoint attempts made, the backoff
waits performed (in milliseconds, in order), and the final cache state. -/
structure SearchResult where
  result : Except SearchError (List FoodProduct)
  attempts : Nat
  waits : List ℚ
  cache : List CacheRow

/-- `maxRetries = 3` from the source. -/
def maxRetries : Nat := 3

/-- `baseDelay = 1000` milliseconds from the source. -/
def baseDelay : ℚ := 1000

/-- The retry loop of `searchProductsByName`, one iteration per unit of
`fuel` (`fuel = maxRetries - attempt + 1` at every reachable call).  On a
caught error before the final attempt the loop waits
`baseDelay * 2 ^ (attempt - 1) + jitter` and retries; on the final
attempt it classifies via `classifyFinal`.  The `fuel = 0` case is the
unreachable `return []` after the loop. -/
def runAttempts (env : Env) : Nat → Nat → List CacheRow → List ℚ → SearchResult
  | attempt, 0, st, waits => { result := .ok [], attempts := attempt - 1, waits := waits, cache := st }
  | attempt, fuel + 1, st, waits =>
    match stepOf (env.responses attempt) with
    | .success data =>
      { result := .ok (normalizeList env.tsOf data)
        attempts := attempt
        waits := waits
        cache := cacheSearchResults (env.cacheFails attempt) data 0 st }
    | .notFound => { result := .ok [], attempts := attempt, waits := waits, cache := st }
    | .failure msg =>
      if attempt = maxRetries then
        { result := classifyFinal msg, attempts := attempt, waits := waits, cache := st }
      else
        runAttempts env (attempt + 1) fuel st
          (waits ++ [baseDelay * 2 ^ (attempt - 1) + env.jitter attempt])

/-- `searchProductsByName` from the source, over the oracle environment
and an initial cache state. -/
def searchProductsByName (query : String) (env : Env) (st : List CacheRow) : SearchResult :=
  runAttempts env 1 maxRetries st []

/-- A row of the `maltidsinlagg` table, as inserted by `addFoodToMeal`. -/
structure MealRow where
  daglig_logg_id : String
  maltidstyp : String
  off_id : String
  custom_namn : String
  antal_gram : ℚ
deriving DecidableEq

/-- `addFoodToMeal` from the source: a non-positive `quantityGrams` is
replaced by `100`; a falsy `product.off_id` is replaced by a synthesized
identifier whose row is also inserted into the cache.  Returns the
`maltidsinlagg` row and the cache row inserted, if any. -/
def addFoodToMeal (logId : String) (product : FoodProduct) (quantityGrams : ℚ)
    (mealType : String) (now : Nat) : MealRow × Option CacheRow :=
  let quantity : ℚ := if quantityGrams > 0 then quantityGrams else 100
  match jsTruthy product.off_id with
  | some id =>
    ({ daglig_logg_id := logId, maltidstyp := mealType.toLower, off_id := id,
       custom_namn := product.name, antal_gram := quantity }, none)
  | none =>
    let id := generateTempId product.name (some product.brand) now
    ({ daglig_logg_id := logId, maltidstyp := mealType.toLower, off_id := id,
       custom_namn := product.name, antal_gram := quantity },
     some { off_id := id
            produktnamn := product.name
            varumarke := jsTruthy (some product.brand)
            energi_kcal_100g := product.calories
            protein_100g := product.protein
            kolhydrater_100g := product.carbs
            fett_100g := product.fat
            bild_url := jsTruthy (some product.image_url) })

/-! ## Helper lemmas -/

/-- `a || ""` on an optional string is `Option.getD ""`. -/
theorem jsStrOr_empty (o : Option String) : jsStrOr o "" = o.getD "" := by
  cases o with
  | none => rfl
  | some s =>
    simp only [jsStrOr, jsTruthy, Option.getD_some]
    split
    next h => split at h <;> simp_all
    next h => split at h <;> simp_all

/-- The character-code fold of `generateTempId` equals `charSum`. -/
theorem foldl_charCodes (l : List Char) :
    ∀ acc : Nat, l.foldl (fun acc char => acc + char.toNat) acc = acc + (l.map Char.toNat).sum := by
  induction l with
  | nil => intro acc; simp
  | cons c cs ih => intro acc; simp [ih, Nat.add_assoc]

/-- Closed form of `generateTempId`. -/
theorem generateTempId_eq (name : String) (brand : Option String) (now : Nat) :
    generateTempId name brand now
      = "temp_" ++ toString (charSum (name ++ brand.getD "" ++ toString now)) := by
  unfold generateTempId charSum
  simp only [jsStrOr_empty, foldl_charCodes, Nat.zero_add]

/-- A synthesized identifier is never the empty string. -/
theorem generateTempId_ne_empty (name : String) (brand : Option String) (now : Nat) :
    generateTempId name brand now ≠ "" := by
  rw [generateTempId_eq]
  intro h
  have hd := congrArg String.data h
  rw [String.data_append] at hd
  simp at hd

/-! ## C9 — the identifier synthesizer's contract -/

/-- C9: for every name, optional brand and timestamp, `generateTempId`
returns (totally, hence without throwing) the string `temp_` followed by
the sum of the character codes of the concatenation
name + brand + timestamp, an absent or empty brand being treated as the
empty string. -/
theorem generateTempId_spec (name : String) (brand : Option String) (now : Nat) :
    generateTempId name brand now
      = "temp_" ++ toString (charSum (name ++ brand.getD "" ++ toString now))
    ∧ generateTempId name (some "") now = generateTempId name none now := by
  refine ⟨generateTempId_eq name brand now, ?_⟩
  rw [generateTempId_eq, generateTempId_eq]
  rfl

/-! ## C8 — identifier collisions within one millisecond -/

/-- C8, counterexample: the distinct names `ab` and `ba` (same brand,
same millisecond) synthesize the *same* identifier, because the
character-code sum is permutation-invariant; the claim that distinct
name+brand inputs yield distinct identifiers in the same millisecond is
false. -/
theorem generateTempId_distinct_names_collide :
    generateTempId "ab" (some "") 0 = generateTempId "ba" (some "") 0
    ∧ ("ab" : String) ≠ "ba" := by
  exact ⟨rfl, by decide⟩

/-- The digit list of the decimal rendering of a natural number. -/
def decDigits (n : Nat) : List Char :=
  if h : n < 10 then [Nat.digitChar n]
  else decDigits (n / 10) ++ [Nat.digitChar (n % 10)]
decreasing_by exact Nat.div_lt_self (by omega) (by omega)

/-- Positional decimal parse of a character list. -/
def parse10 (l : List Char) : Nat :=
  l.foldl (fun a c => a * 10 + (c.toNat - 48)) 0

/-- Parsing one appended digit character. -/
theorem parse10_append_one (xs : List Char) (c : Char) :
    parse10 (xs ++ [c]) = parse10 xs * 10 + (c.toNat - 48) := by
  simp [parse10, List.foldl_append]

/-- Code of a digit character. -/
theorem digitChar_toNat (d : Nat) (h : d < 10) : (Nat.digitChar d).toNat - 48 = d := by
  interval_cases d <;> decide

/-- The core renderer of `Nat.repr` produces the decimal digit list in
front of its accumulator, whenever the fuel suffices. -/
theorem toDigitsCore_eq_decDigits :
    ∀ n fuel ds, n < fuel → Nat.toDigitsCore 10 fuel n ds = decDigits n ++ ds := by
  intro n
  induction n using Nat.strong_induction_on with
  | _ n ih =>
    intro fuel ds hlt
    cases fuel with
    | zero => omega
    | succ f =>
      simp only [Nat.toDigitsCore]
      by_cases h0 : n / 10 = 0
      · rw [if_pos h0]
        have hn : n < 10 := by omega
        rw [decDigits, dif_pos hn]
        have : n % 10 = n := Nat.mod_eq_of_lt hn
        rw [this]
        rfl
      · rw [if_neg h0]
        have hn : ¬ n < 10 := by
          intro hc
          exact h0 (Nat.div_eq_of_lt hc)
        have hdiv : n / 10 < n := Nat.div_lt_self (by omega) (by omega)
        have hfuel : n / 10 < f := by omega
        have hD : decDigits n = decDigits (n / 10) ++ [Nat.digitChar (n % 10)] := by
          rw [decDigits, dif_neg hn]
        rw [ih (n / 10) hdiv f (Nat.digitChar (n % 10) :: ds) hfuel, hD, List.append_assoc]
        simp

/-- Decimal rendering round-trips through parsing. -/
theorem parse10_decDigits (n : Nat) : parse10 (decDigits n) = n := by
  induction n using Nat.strong_induction_on with
  | _ n ih =>
    by_cases hn : n < 10
    · rw [decDigits, dif_pos hn]
      simp [parse10, List.foldl, digitChar_toNat n hn]
    · rw [decDigits, dif_neg hn]
      rw [parse10_append_one]
      have hdiv : n / 10 < n := Nat.div_lt_self (by omega) (by omega)
      rw [ih (n / 10) hdiv, digitChar_toNat (n % 10) (Nat.mod_lt n (by omega))]
      omega

/-- The decimal rendering of natural numbers is injective. -/
theorem natRepr_injective (m n : Nat) (h : Nat.repr m = Nat.repr n) : m = n := by
  have hm : Nat.repr m = (decDigits m).asString := by
    unfold Nat.repr Nat.toDigits
    rw [toDigitsCore_eq_decDigits m (m + 1) [] (by omega), List.append_nil]
  have hn : Nat.repr n = (decDigits n).asString := by
    unfold Nat.repr Nat.toDigits
    rw [toDigitsCore_eq_decDigits n (n + 1) [] (by omega), List.append_nil]
  rw [hm, hn] at h
  have hdata : decDigits m = decDigits n := congrArg String.data h
  have := congrArg parse10 hdata
  rwa [parse10_decDigits, parse10_decDigits] at this

/-- `toString` on natural numbers is injective. -/
theorem natToString_injective (m n : Nat) (h : toString m = toString n) : m = n :=
  natRepr_injective m n h

/-- C8, amended: two identifier-synthesis calls made in the same
millisecond produce the same identifier *exactly* when the
character-code checksums of name + brand + timestamp coincide; since
distinct name+brand inputs can share a checksum (the sum is
permutation-invariant), distinctness of the inputs does not guarantee
distinct identifiers, while identical name+brand inputs always
coincide. -/
theorem generateTempId_collision_iff_checksum (n1 n2 : String) (b1 b2 : Option String) (ts : Nat) :
    generateTempId n1 b1 ts = generateTempId n2 b2 ts
      ↔ charSum (n1 ++ b1.getD "" ++ toString ts)
          = charSum (n2 ++ b2.getD "" ++ toString ts) := by
  rw [generateTempId_eq, generateTempId_eq]
  constructor
  · intro h
    have hdata := congrArg String.data h
    rw [String.data_append, String.data_append] at hdata
    have := List.append_cancel_left hdata
    exact natToString_injective _ _ (String.ext this)
  · intro h
    rw [h]

/-- Witness for C8's amended theorem at the colliding pair. -/
theorem generateTempId_collision_iff_checksum_witness :
    generateTempId "ab" (some "") 0 = generateTempId "ba" (some "") 0 :=
  (generateTempId_collision_iff_checksum "ab" "ba" (some "") (some "") 0).mpr (by decide)

/-! ## C10 — quantity defaulting in `addFoodToMeal` -/

/-- C10: the quantity stored in the `maltidsinlagg` row equals
`quantityGrams` when positive and `100` otherwise. -/
theorem addFoodToMeal_quantity_default (logId : String) (product : FoodProduct)
    (quantityGrams : ℚ) (mealType : String) (now : Nat) :
    (0 < quantityGrams →
      (addFoodToMeal logId product quantityGrams mealType now).1.antal_gram = quantityGrams)
    ∧ (quantityGrams ≤ 0 →
      (addFoodToMeal logId product quantityGrams mealType now).1.antal_gram = 100) := by
  unfold addFoodToMeal
  cases ho : jsTruthy product.off_id <;>
    simp only [ho] <;>
    constructor <;>
    intro h <;>
    simp only [gt_iff_lt] <;>
    split <;>
    first
      | rfl
      | (exfalso; linarith)

/-- Witness for C10 at a positive and a non-positive quantity. -/
theorem addFoodToMeal_quantity_default_witness :
    (addFoodToMeal "log1"
      { name := "Oats", brand := "B", calories := 370, protein := 13, fat := 7,
        carbs := 60, sugar := none, image_url := "", off_id := some "123" }
      50 "frukost" 0).1.antal_gram = 50
    ∧ (addFoodToMeal "log1"
      { name := "Oats", brand := "B", calories := 370, protein := 13, fat := 7,
        carbs := 60, sugar := none, image_url := "", off_id := some "123" }
      (-3) "frukost" 0).1.antal_gram = 100 :=
  ⟨(addFoodToMeal_quantity_default "log1" _ 50 "frukost" 0).1 (by norm_num),
   (addFoodToMeal_quantity_default "log1" _ (-3) "frukost" 0).2 (by norm_num)⟩

/-! ## C1 — cache behaviour for records lacking any identifier -/

/-- The raw `banana` end-to-end record of the spec: a name and calories,
no brand and no identifier. -/
def bananaItem : RawItem :=
  { name := "Banana", brand := none, calories := some 89, protein := none,
    fat := none, carbs := none, sugar := none, image_url := none,
    off_id := none, barcode := none }

/-- Environment for the `banana` query: the first attempt succeeds with
the single raw record, jitter 0, all timestamps 0, no cache failures. -/
def envBanana : Env :=
  { responses := fun _ => .okData (some [bananaItem])
    jitter := fun _ => 0
    tsOf := fun _ => 0
    cacheFails := fun _ _ => false }

/-- If every record of a list lacks both `off_id` and `barcode`,
`cacheSearchResults` leaves the store untouched. -/
theorem cacheSearchResults_skip_all (fails : Nat → Bool) (ps : List RawItem)
    (h : ∀ p ∈ ps, resolveCacheId p = none) :
    ∀ i st, cacheSearchResults fails ps i st = st := by
  induction ps with
  | nil => intro i st; rfl
  | cons p rest ih =>
    intro i st
    have hp : resolveCacheId p = none := h p (List.mem_cons_self p rest)
    simp only [cacheSearchResults, hp]
    exact ih (fun q hq => h q (List.mem_cons_of_mem p hq)) (i + 1) st

/-- C1, counterexample: the `banana` query — one record with a name and
calories but no brand and no identifier — inserts *zero* new cache rows,
not one: `cacheSearchResults` skips every record lacking both `off_id`
and `barcode` (it never calls the identifier synthesizer), even though
the returned ProductRecord does carry a synthesized identifier. -/
theorem cacheWriter_banana_counterexample :
    (searchProductsByName "banana" envBanana []).cache = []
    ∧ (searchProductsByName "banana" envBanana []).result
        = .ok [{ name := "Banana", brand := "", calories := 89, protein := 0, fat := 0,
                 carbs := 0, sugar := none, image_url := "", off_id := some "temp_625" }] :=
  ⟨rfl, rfl⟩

/-- C1, amended: when the search succeeds and every returned record lacks
both `off_id` and `barcode`, the Result Cache Writer skips them all — no
identifier is synthesized for caching and no cache row is inserted — while
the caller still receives the normalized records (whose identifiers *are*
synthesized); in particular the `banana` query inserts zero new cache
rows. -/
theorem cacheWriter_skips_unidentified (q : String) (env : Env) (st : List CacheRow)
    (ps : List RawItem)
    (hr : env.responses 1 = .okData (some ps))
    (hids : ∀ p ∈ ps, resolveCacheId p = none) :
    (searchProductsByName q env st).cache = st
    ∧ (searchProductsByName q env st).result = .ok (normalizeList env.tsOf ps)
    ∧ (searchProductsByName q env st).attempts = 1 := by
  have hstep : stepOf (env.responses 1) = .success ps := by rw [hr]; rfl
  unfold searchProductsByName maxRetries
  simp only [runAttempts, hstep]
  exact ⟨cacheSearchResults_skip_all _ ps hids 0 st, by trivial, by trivial⟩

/-- Witness for C1's amended theorem at the `banana` environment. -/
theorem cacheWriter_skips_unidentified_witness :
    (searchProductsByName "banana" envBanana []).cache = []
    ∧ (searchProductsByName "banana" envBanana []).attempts = 1 :=
  ⟨(cacheWriter_skips_unidentified "banana" envBanana [] [bananaItem] rfl
      (by intro p hp; simp only [List.mem_singleton] at hp; subst hp; rfl)).1,
   (cacheWriter_skips_unidentified "banana" envBanana [] [bananaItem] rfl
      (by intro p hp; simp only [List.mem_singleton] at hp; subst hp; rfl)).2.2⟩

/-! ## C2 — retry count and backoff bounds -/

/-- C2: at most 3 endpoint attempts are made; at most two backoff waits
occur, the wait after failed attempt `n = i + 1` being exactly
`1000 * 2 ^ (n - 1)` milliseconds plus that attempt's jitter; with every
jitter in `[0, 200)` the total backoff wait is always below `3400` ms
and, in the worst case where both backoff waits occur, at least
`3000` ms.  (That the jitter is drawn *uniformly* is a distributional
statement about `Math.random` and is not modelled; the jitter oracle is
only constrained to its range.) -/
theorem searchProductsByName_backoff_bounds (q : String) (env : Env) (st : List CacheRow)
    (hj : ∀ n, 0 ≤ env.jitter n ∧ env.jitter n < 200) :
    (searchProductsByName q env st).attempts ≤ 3
    ∧ (searchProductsByName q env st).waits.length ≤ 2
    ∧ (∀ i, i < (searchProductsByName q env st).waits.length →
        (searchProductsByName q env st).waits.getD i 0 = 1000 * 2 ^ i + env.jitter (i + 1))
    ∧ (searchProductsByName q env st).waits.sum < 3400
    ∧ ((searchProductsByName q env st).waits.length = 2 →
        3000 ≤ (searchProductsByName q env st).waits.sum) := by
  obtain ⟨hj1l, hj1u⟩ := hj 1
  obtain ⟨hj2l, hj2u⟩ := hj 2
  unfold searchProductsByName
  cases h1 : stepOf (env.responses 1) with
  | success d =>
    simp only [runAttempts, maxRetries, h1]
    norm_num [baseDelay]
  | notFound =>
    simp only [runAttempts, maxRetries, h1]
    norm_num [baseDelay]
  | failure m1 =>
    cases h2 : stepOf (env.responses 2) with
    | success d =>
      simp only [runAttempts, maxRetries, h1, h2]
      norm_num [baseDelay]
      linarith
    | notFound =>
      simp only [runAttempts, maxRetries, h1, h2]
      norm_num [baseDelay]
      linarith
    | failure m2 =>
      cases h3 : stepOf (env.responses 3) with
      | success d =>
        simp only [runAttempts, maxRetries, h1, h2, h3]
        norm_num [baseDelay]
        refine ⟨?_, by linarith, by linarith⟩
        intro i hi
        interval_cases i <;> norm_num [baseDelay]
      | notFound =>
        simp only [runAttempts, maxRetries, h1, h2, h3]
        norm_num [baseDelay]
        refine ⟨?_, by linarith, by linarith⟩
        intro i hi
        interval_cases i <;> norm_num [baseDelay]
      | failure m3 =>
        simp only [runAttempts, maxRetries, h1, h2, h3]
        norm_num [baseDelay]
        refine ⟨?_, by linarith, by linarith⟩
        intro i hi
        interval_cases i <;> norm_num [baseDelay]

/-- A server-error response used by the failure-path witnesses. -/
def err500resp : InvokeResult := .err { status := some 500, message := "boom" }

/-- An environment in which every attempt fails with a retryable server
error and every jitter is 50 ms. -/
def envAllFail : Env :=
  { responses := fun _ => err500resp
    jitter := fun _ => 50
    tsOf := fun _ => 0
    cacheFails := fun _ _ => false }

/-- Witness for C2 in the worst case: three failed attempts, both
backoff waits performed. -/
theorem searchProductsByName_backoff_bounds_witness :
    (searchProductsByName "q" envAllFail []).attempts ≤ 3
    ∧ (searchProductsByName "q" envAllFail []).waits.sum < 3400
    ∧ 3000 ≤ (searchProductsByName "q" envAllFail []).waits.sum := by
  have h := searchProductsByName_backoff_bounds "q" envAllFail []
    (fun n => ⟨by show (0:ℚ) ≤ 50; norm_num, by show (50:ℚ) < 200; norm_num⟩)
  exact ⟨h.1, h.2.2.2.1, h.2.2.2.2 (by rfl)⟩

/-! ## C3 — not-found responses return empty immediately -/

/-- A thrown attempt message is never the empty string. -/
theorem stepOf_failure_ne_empty (r : InvokeResult) (m : String)
    (h : stepOf r = .failure m) : m ≠ "" := by
  cases r with
  | err e =>
    simp only [stepOf] at h
    split at h
    · exact absurd h (by simp)
    · have hm : "Sökningen misslyckades: " ++ e.message = m := by
        injection h
      intro h0
      have hlen := congrArg String.length (hm.trans h0)
      rw [String.length_append] at hlen
      have hz : ("" : String).length = 0 := rfl
      rw [hz] at hlen
      have hpos : 0 < "Sökningen misslyckades: ".length := by decide
      omega
  | okData data =>
    cases data with
    | none =>
      simp only [stepOf] at h
      have hm : "Ogiltig respons från servern" = m := by injection h
      intro h0
      rw [← hm] at h0
      exact absurd h0 (by decide)
    | some d => simp [stepOf] at h

/-- C3: if attempt `k` (any of the three, every earlier attempt having
thrown a retryable error) receives an explicit 404-status error, the
call returns the empty list, raises no error, makes no further attempts
(`attempts = k`), and writes nothing to the cache. -/
theorem searchProductsByName_notFound_immediate (q : String) (env : Env) (st : List CacheRow)
    (k : Nat) (e : ErrObj) (hk1 : 1 ≤ k) (hk3 : k ≤ 3)
    (hprev : ∀ j, 1 ≤ j → j < k → ∃ m, stepOf (env.responses j) = .failure m)
    (hr : env.responses k = .err e) (h404 : e.status = some 404) :
    (searchProductsByName q env st).result = .ok []
    ∧ (searchProductsByName q env st).attempts = k
    ∧ (searchProductsByName q env st).cache = st := by
  have hstep : stepOf (env.responses k) = .notFound := by
    rw [hr]; simp [stepOf, h404]
  unfold searchProductsByName
  interval_cases k
  · simp only [runAttempts, maxRetries, hstep]
    norm_num
  · obtain ⟨m1, h1⟩ := hprev 1 (by norm_num) (by norm_num)
    simp only [runAttempts, maxRetries, h1, hstep]
    norm_num
  · obtain ⟨m1, h1⟩ := hprev 1 (by norm_num) (by norm_num)
    obtain ⟨m2, h2⟩ := hprev 2 (by norm_num) (by norm_num)
    simp only [runAttempts, maxRetries, h1, h2, hstep]
    norm_num

/-- A 404 response used by the not-found witness. -/
def err404resp : InvokeResult := .err { status := some 404, message := "Not found" }

/-- An environment whose first attempt fails with a server error and
whose second attempt reports 404. -/
def envNotFoundAt2 : Env :=
  { responses := fun n => if n = 1 then err500resp else err404resp
    jitter := fun _ => 0
    tsOf := fun _ => 0
    cacheFails := fun _ _ => false }

/-- Witness for C3 with the 404 arriving on the second attempt. -/
theorem searchProductsByName_notFound_immediate_witness :
    (searchProductsByName "q" envNotFoundAt2 []).result = .ok []
    ∧ (searchProductsByName "q" envNotFoundAt2 []).attempts = 2 := by
  have h := searchProductsByName_notFound_immediate "q" envNotFoundAt2 [] 2
    { status := some 404, message := "Not found" } (by norm_num) (by norm_num)
    (by
      intro j hj1 hj2
      interval_cases j
      exact ⟨"Sökningen misslyckades: " ++ "boom", rfl⟩)
    rfl rfl
  exact ⟨h.1, h.2.1⟩

/-! ## C4 — error classification on the final attempt -/

/-- C4: when all three attempts throw and the final attempt's error is
not of the 404 class, the call raises exactly one of the two error
classes: the user-facing "cannot reach server" error when the message is
network-class (`Network` / `Failed to fetch` / `HTTP error`), otherwise
the generic "search failed" error carrying the underlying message. -/
theorem searchProductsByName_final_error_classes (q : String) (env : Env) (st : List CacheRow)
    (m1 m2 msg : String)
    (h1 : stepOf (env.responses 1) = .failure m1)
    (h2 : stepOf (env.responses 2) = .failure m2)
    (h3 : stepOf (env.responses 3) = .failure msg)
    (hnot404 : strIncludes msg "404" = false) :
    (searchProductsByName q env st).result
      = (if strIncludes msg "Network" || strIncludes msg "Failed to fetch"
            || strIncludes msg "HTTP error"
         then .error .networkUnavailable
         else .error (.searchFailed msg)) := by
  have hne : msg ≠ "" := stepOf_failure_ne_empty _ _ h3
  unfold searchProductsByName
  simp only [runAttempts, maxRetries, h1, h2, h3]
  norm_num [classifyFinal, hnot404, hne]

/-- Witness for C4: three non-network failures raise the generic search
failure carrying the wrapped message. -/
theorem searchProductsByName_final_error_classes_witness :
    (searchProductsByName "q" envAllFail []).result
      = .error (.searchFailed "Sökningen misslyckades: boom") := by
  have h := searchProductsByName_final_error_classes "q" envAllFail []
    ("Sökningen misslyckades: " ++ "boom") ("Sökningen misslyckades: " ++ "boom")
    ("Sökningen misslyckades: " ++ "boom") rfl rfl rfl (by decide)
  exact h.trans (by rfl)

/-! ## C5 — cache failures are fully contained -/

/-- The observable outcome of the retry loop (returned value or raised
error, attempt count, backoff waits) does not depend on the cache-failure
oracle. -/
theorem runAttempts_cacheFails_irrelevant (env : Env) (f : Nat → Nat → Bool) :
    ∀ fuel attempt st waits,
      (runAttempts { env with cacheFails := f } attempt fuel st waits).result
        = (runAttempts env attempt fuel st waits).result
      ∧ (runAttempts { env with cacheFails := f } attempt fuel st waits).attempts
        = (runAttempts env attempt fuel st waits).attempts
      ∧ (runAttempts { env with cacheFails := f } attempt fuel st waits).waits
        = (runAttempts env attempt fuel st waits).waits := by
  intro fuel
  induction fuel with
  | zero => intro attempt st waits; exact ⟨rfl, rfl, rfl⟩
  | succ n ih =>
    intro attempt st waits
    cases h : stepOf (env.responses attempt) with
    | success d =>
      simp only [runAttempts, h]
      exact ⟨by trivial, by trivial, by trivial⟩
    | notFound =>
      simp only [runAttempts, h]
      exact ⟨by trivial, by trivial, by trivial⟩
    | failure m =>
      simp only [runAttempts, h]
      by_cases ha : attempt = maxRetries
      · rw [if_pos ha, if_pos ha]
        exact ⟨by trivial, by trivial, by trivial⟩
      · rw [if_neg ha, if_neg ha]
        exact ih (attempt + 1) st _

/-- C5: no failure in the cache-writing path reaches the caller of
`searchProductsByName` — for any cache-failure oracle `f` the returned
value or raised error, the attempt count and the waits are identical to
the run where every cache operation succeeds, so a cache failure never
raises an error, discards a result, or delays the caller. -/
theorem searchProductsByName_cache_failure_contained (q : String) (env : Env)
    (f : Nat → Nat → Bool) (st : List CacheRow) :
    (searchProductsByName q { env with cacheFails := f } st).result
      = (searchProductsByName q env st).result
    ∧ (searchProductsByName q { env with cacheFails := f } st).attempts
      = (searchProductsByName q env st).attempts
    ∧ (searchProductsByName q { env with cacheFails := f } st).waits
      = (searchProductsByName q env st).waits :=
  runAttempts_cacheFails_irrelevant env f maxRetries 1 st []

/-! ## C6 — the normalization postcondition -/

/-- A truthy optional string is a non-empty string. -/
theorem jsTruthy_some (o : Option String) (s : String) (h : jsTruthy o = some s) : s ≠ "" := by
  cases o with
  | none => simp [jsTruthy] at h
  | some t =>
    simp only [jsTruthy] at h
    split at h
    · cases h
    · next hne => cases h; exact hne

/-- Every list a run of the retry loop returns successfully is either
empty or the normalization of some raw payload. -/
theorem runAttempts_ok_characterization (env : Env) :
    ∀ fuel attempt st waits l,
      (runAttempts env attempt fuel st waits).result = .ok l →
      l = [] ∨ ∃ data, l = normalizeList env.tsOf data := by
  intro fuel
  induction fuel with
  | zero =>
    intro a st w l h
    left
    simp only [runAttempts] at h
    exact (Except.ok.inj h).symm
  | succ n ih =>
    intro a st w l h
    cases hs : stepOf (env.responses a) with
    | success d =>
      right
      simp only [runAttempts, hs] at h
      exact ⟨d, (Except.ok.inj h).symm⟩
    | notFound =>
      left
      simp only [runAttempts, hs] at h
      exact (Except.ok.inj h).symm
    | failure m =>
      simp only [runAttempts, hs] at h
      by_cases ha : a = maxRetries
      · rw [if_pos ha] at h
        simp only at h
        unfold classifyFinal at h
        split at h
        · left; exact (Except.ok.inj h).symm
        · split at h <;> exact absurd h (by simp)
      · rw [if_neg ha] at h
        exact ih _ _ _ _ h

/-- Every member of a normalized list is the normalization of a member
of the raw list at some timestamp. -/
theorem normalizeListAux_mem (tsOf : Nat → Nat) :
    ∀ (data : List RawItem) (i : Nat) (p : FoodProduct),
      p ∈ normalizeListAux tsOf data i →
      ∃ item j, item ∈ data ∧ p = normalizeItem (tsOf j) item := by
  intro data
  induction data with
  | nil => intro i p h; simp [normalizeListAux] at h
  | cons x xs ih =>
    intro i p h
    simp only [normalizeListAux, List.mem_cons] at h
    rcases h with h | h
    · exact ⟨x, i, List.mem_cons_self x xs, h⟩
    · obtain ⟨item, j, hmem, hp⟩ := ih (i + 1) p h
      exact ⟨item, j, List.mem_cons_of_mem x hmem, hp⟩

/-- C6: every ProductRecord returned by a successful
`searchProductsByName` call satisfies the normalization postcondition:
it arises from a raw item whose missing numeric fields became `0` and
missing brand/image became the empty string, and its `off_id` is a
non-empty identifier — the raw `off_id` when present (truthy), else the
raw `barcode` when present, else the synthesized temporary identifier
built from the item's name and brand. -/
theorem searchProductsByName_normalization (q : String) (env : Env) (st : List CacheRow)
    (l : List FoodProduct)
    (h : (searchProductsByName q env st).result = .ok l) :
    ∀ p ∈ l, ∃ (item : RawItem) (ts : Nat),
      p.name = item.name
      ∧ (item.calories = none → p.calories = 0)
      ∧ (item.protein = none → p.protein = 0)
      ∧ (item.fat = none → p.fat = 0)
      ∧ (item.carbs = none → p.carbs = 0)
      ∧ (item.brand = none → p.brand = "")
      ∧ (item.image_url = none → p.image_url = "")
      ∧ ∃ s, p.off_id = some s ∧ s ≠ ""
        ∧ (∀ o, jsTruthy item.off_id = some o → s = o)
        ∧ (∀ b, jsTruthy item.off_id = none → jsTruthy item.barcode = some b → s = b)
        ∧ (jsTruthy item.off_id = none → jsTruthy item.barcode = none →
            s = generateTempId item.name item.brand ts) := by
  intro p hp
  rcases runAttempts_ok_characterization env maxRetries 1 st [] l h with rfl | ⟨data, rfl⟩
  · exact absurd hp (List.not_mem_nil p)
  · obtain ⟨item, j, hmem, rfl⟩ := normalizeListAux_mem env.tsOf data 0 p hp
    refine ⟨item, env.tsOf j, rfl, ?_, ?_, ?_, ?_, ?_, ?_, ?_⟩
    · intro hc; simp [normalizeItem, jsNumOr, hc]
    · intro hc; simp [normalizeItem, jsNumOr, hc]
    · intro hc; simp [normalizeItem, jsNumOr, hc]
    · intro hc; simp [normalizeItem, jsNumOr, hc]
    · intro hc; simp [normalizeItem, jsStrOr, jsTruthy, hc]
    · intro hc; simp [normalizeItem, jsStrOr, jsTruthy, hc]
    · refine ⟨_, rfl, ?_, ?_, ?_, ?_⟩
      · cases ho : jsTruthy item.off_id with
        | some o =>
          simp only [normalizeItem, jsStrOr, ho]
          exact jsTruthy_some _ _ ho
        | none =>
          cases hb : jsTruthy item.barcode with
          | some b =>
            simp only [normalizeItem, jsStrOr, ho, hb]
            exact jsTruthy_some _ _ hb
          | none =>
            simp only [normalizeItem, jsStrOr, ho, hb]
            exact generateTempId_ne_empty _ _ _
      · intro o ho
        simp [normalizeItem, jsStrOr, ho]
      · intro b ho hb
        simp [normalizeItem, jsStrOr, ho, hb]
      · intro ho hb
        simp [normalizeItem, jsStrOr, ho, hb]

/-- Witness for C6 at the `banana` record, whose identifier must be
synthesized. -/
theorem searchProductsByName_normalization_witness :
    (searchProductsByName "banana" envBanana []).result = .ok [normalizeItem 0 bananaItem]
    ∧ ∃ (item : RawItem) (ts : Nat),
      (normalizeItem 0 bananaItem).name = item.name
      ∧ (item.calories = none → (normalizeItem 0 bananaItem).calories = 0)
      ∧ (item.protein = none → (normalizeItem 0 bananaItem).protein = 0)
      ∧ (item.fat = none → (normalizeItem 0 bananaItem).fat = 0)
      ∧ (item.carbs = none → (normalizeItem 0 bananaItem).carbs = 0)
      ∧ (item.brand = none → (normalizeItem 0 bananaItem).brand = "")
      ∧ (item.image_url = none → (normalizeItem 0 bananaItem).image_url = "")
      ∧ ∃ s, (normalizeItem 0 bananaItem).off_id = some s ∧ s ≠ ""
        ∧ (∀ o, jsTruthy item.off_id = some o → s = o)
        ∧ (∀ b, jsTruthy item.off_id = none → jsTruthy item.barcode = some b → s = b)
        ∧ (jsTruthy item.off_id = none → jsTruthy item.barcode = none →
            s = generateTempId item.name item.brand ts) :=
  ⟨rfl,
   searchProductsByName_normalization "banana" envBanana [] [normalizeItem 0 bananaItem] rfl
     (normalizeItem 0 bananaItem) (List.mem_singleton.mpr rfl)⟩

/-! ## C7 — idempotent, unique cache insertion -/

/-- Number of cache rows carrying a given identifier. -/
def countId (id : String) (st : List CacheRow) : Nat :=
  (st.filter (fun row => row.off_id = id)).length

/-- `countId` distributes over append. -/
theorem countId_append (id : String) (a b : List CacheRow) :
    countId id (a ++ b) = countId id a + countId id b := by
  simp [countId, List.filter_append]

/-- `countId` of a single row. -/
theorem countId_singleton (id : String) (row : CacheRow) :
    countId id [row] = if row.off_id = id then 1 else 0 := by
  simp only [countId, List.filter]
  split <;> simp_all

/-- The point lookup of the cache writer succeeds exactly when a row
with the identifier is present. -/
theorem any_eq_countId (id : String) (st : List CacheRow) :
    st.any (fun row => row.off_id = id) = true ↔ 1 ≤ countId id st := by
  rw [List.any_eq_true]
  constructor
  · rintro ⟨row, hmem, hrow⟩
    have h : row ∈ st.filter (fun row => row.off_id = id) :=
      List.mem_filter.mpr ⟨hmem, hrow⟩
    have := List.length_pos.mpr (List.ne_nil_of_mem h)
    unfold countId
    omega
  · intro h1
    have hpos : 0 < (st.filter (fun row => row.off_id = id)).length := by
      unfold countId at h1; omega
    obtain ⟨row, hrow⟩ := List.exists_mem_of_length_pos hpos
    obtain ⟨hmem, hp⟩ := List.mem_filter.mp hrow
    exact ⟨row, hmem, hp⟩

/-- The cache writer is append-only: it never deletes or updates an
existing row. -/
theorem cacheSearchResults_existsAppend (fails : Nat → Bool) (ps : List RawItem) :
    ∀ i st, ∃ ext, cacheSearchResults fails ps i st = st ++ ext := by
  induction ps with
  | nil => intro i st; exact ⟨[], (List.append_nil st).symm⟩
  | cons p rest ih =>
    intro i st
    cases hid : resolveCacheId p with
    | none => simp only [cacheSearchResults, hid]; exact ih (i + 1) st
    | some pid =>
      simp only [cacheSearchResults, hid]
      by_cases hf : fails i = true
      · rw [if_pos hf]; exact ⟨[], (List.append_nil st).symm⟩
      · rw [if_neg hf]
        by_cases hany : st.any (fun row => row.off_id = pid) = true
        · rw [if_pos hany]; exact ih (i + 1) st
        · rw [if_neg hany]
          obtain ⟨ext, hext⟩ := ih (i + 1) (st ++ [mkCacheRow pid p])
          exact ⟨[mkCacheRow pid p] ++ ext, by rw [hext, List.append_assoc]⟩

/-- The cache writer inserts only after its lookup finds no row with the
identifier, so it preserves per-identifier uniqueness. -/
theorem countId_le_one (fails : Nat → Bool) (ps : List RawItem) :
    ∀ i st, (∀ id, countId id st ≤ 1) →
      ∀ id, countId id (cacheSearchResults fails ps i st) ≤ 1 := by
  induction ps with
  | nil => intro i st h id; exact h id
  | cons p rest ih =>
    intro i st h id
    cases hid : resolveCacheId p with
    | none => simp only [cacheSearchResults, hid]; exact ih (i + 1) st h id
    | some pid =>
      simp only [cacheSearchResults, hid]
      by_cases hf : fails i = true
      · rw [if_pos hf]; exact h id
      · rw [if_neg hf]
        by_cases hany : st.any (fun row => row.off_id = pid) = true
        · rw [if_pos hany]; exact ih (i + 1) st h id
        · rw [if_neg hany]
          apply ih
          intro id'
          rw [countId_append, countId_singleton]
          have hrow : (mkCacheRow pid p).off_id = pid := rfl
          by_cases hid' : pid = id'
          · subst hid'
            have h0 : countId pid st = 0 := by
              by_contra hc
              exact hany ((any_eq_countId pid st).mpr (by omega))
            rw [h0, if_pos hrow]
          · rw [if_neg (by rw [hrow]; exact hid')]
            have := h id'
            omega

/-- With no store failures, the identifier of any processed record is
present after the run. -/
theorem countId_reaches (ps : List RawItem) (p : RawItem) (id : String)
    (hid : resolveCacheId p = some id) :
    ∀ i st, p ∈ ps → 1 ≤ countId id (cacheSearchResults (fun _ => false) ps i st) := by
  induction ps with
  | nil => intro i st h; cases h
  | cons x rest ih =>
    intro i st hmem
    rcases List.mem_cons.mp hmem with rfl | hmem'
    · simp only [cacheSearchResults, hid, Bool.false_eq_true, if_false]
      by_cases hany : st.any (fun row => row.off_id = id) = true
      · rw [if_pos hany]
        have h1 := (any_eq_countId id st).mp hany
        obtain ⟨ext, hext⟩ := cacheSearchResults_existsAppend _ rest (i + 1) st
        rw [hext, countId_append]
        omega
      · rw [if_neg hany]
        obtain ⟨ext, hext⟩ :=
          cacheSearchResults_existsAppend _ rest (i + 1) (st ++ [mkCacheRow id p])
        rw [hext, countId_append, countId_append, countId_singleton]
        have hrow : (mkCacheRow id p).off_id = id := rfl
        rw [hrow, if_pos rfl]
        omega
    · cases hx : resolveCacheId x with
      | none => simp only [cacheSearchResults, hx]; exact ih (i + 1) st hmem'
      | some xid =>
        simp only [cacheSearchResults, hx, Bool.false_eq_true, if_false]
        by_cases hany : st.any (fun row => row.off_id = xid) = true
        · rw [if_pos hany]; exact ih (i + 1) st hmem'
        · rw [if_neg hany]; exact ih (i + 1) _ hmem'

/-- C7: the cache writer is append-only (never updates an existing row),
preserves per-identifier uniqueness, and is idempotent: running it twice
over the same results (with the store cooperating) leaves exactly one
row for each identifier it resolves. -/
theorem cacheSearchResults_idempotent_unique (ps : List RawItem) (st : List CacheRow)
    (id : String) (p : RawItem)
    (hu : ∀ id', countId id' st ≤ 1) (hp : p ∈ ps) (hid : resolveCacheId p = some id) :
    (∃ ext, cacheSearchResults (fun _ => false) ps 0 (cacheSearchResults (fun _ => false) ps 0 st)
        = st ++ ext)
    ∧ (∀ id', countId id' (cacheSearchResults (fun _ => false) ps 0
        (cacheSearchResults (fun _ => false) ps 0 st)) ≤ 1)
    ∧ countId id (cacheSearchResults (fun _ => false) ps 0
        (cacheSearchResults (fun _ => false) ps 0 st)) = 1 := by
  have h1 : ∀ id', countId id' (cacheSearchResults (fun _ => false) ps 0 st) ≤ 1 :=
    countId_le_one _ ps 0 st hu
  have h2 := countId_le_one (fun _ => false) ps 0 _ h1
  have h3 : 1 ≤ countId id (cacheSearchResults (fun _ => false) ps 0 st) :=
    countId_reaches ps p id hid 0 st hp
  have h4 : 1 ≤ countId id (cacheSearchResults (fun _ => false) ps 0
      (cacheSearchResults (fun _ => false) ps 0 st)) := by
    obtain ⟨ext, hext⟩ := cacheSearchResults_existsAppend (fun _ => false) ps 0
      (cacheSearchResults (fun _ => false) ps 0 st)
    rw [hext, countId_append]
    omega
  refine ⟨?_, h2, le_antisymm (h2 id) h4⟩
  obtain ⟨e1, he1⟩ := cacheSearchResults_existsAppend (fun _ => false) ps 0 st
  obtain ⟨e2, he2⟩ := cacheSearchResults_existsAppend (fun _ => false) ps 0
    (cacheSearchResults (fun _ => false) ps 0 st)
  exact ⟨e1 ++ e2, by rw [he2, he1, List.append_assoc]⟩

/-- A raw record carrying a canonical identifier, for the idempotence
witness. -/
def sampleRaw : RawItem :=
  { name := "Oatmeal", brand := none, calories := some 370, protein := none,
    fat := none, carbs := none, sugar := none, image_url := none,
    off_id := some "4711", barcode := none }

/-- Witness for C7: caching the same record twice from an empty store
leaves exactly one row for its identifier. -/
theorem cacheSearchResults_idempotent_unique_witness :
    countId "4711" (cacheSearchResults (fun _ => false) [sampleRaw] 0
      (cacheSearchResults (fun _ => false) [sampleRaw] 0 [])) = 1 :=
  (cacheSearchResults_idempotent_unique [sampleRaw] [] "4711" sampleRaw
    (fun id' => by simp [countId]) (List.mem_singleton.mpr rfl) rfl).2.2
